import Mathlib

/-! # HDC1008 driver (`hdc1008.c`): shallow embedding and verified properties

The C program talks to a TI HDC1008 temperature / humidity sensor through the
Linux `i2c-dev` character device.  The embedding below follows the source
function by function.

Modelling conventions

* Memory bytes (the contents of the `char buf[..]` arrays, the bytes on the
  bus) are natural numbers `0..255`.
* Reading a plain `char` lvalue in an expression promotes it to `int`.  Whether
  plain `char` is signed is implementation-defined in C (signed on the x86 /
  x86-64 Linux ABIs, unsigned on the ARM Linux ABIs); every function that reads
  a `char` therefore takes the flag `sc` ("plain char is signed").
* `int` / `long` values are mathematical integers; every intermediate value of
  the program fits in 32 bits, so no wrap-around is involved.  `x << 8` on an
  `int` is multiplication by 256 (for a negative left operand this is what
  gcc and clang compute).  `x & m` on a possibly negative `long` is the
  conjunction of the two's complement representations (`cAnd`; it agrees with
  `Int.land`, see `cAnd_eq_land`).
* The `float` results are rationals.  Every value the two conversion formulas
  produce is a multiple of `2^-16` of magnitude below `2^24 * 2^-16`, hence the
  IEEE double computation and the final conversion to `float` are exact (see
  `getTemp_value_binary32`, `getHum_value_binary32`).
* The system calls `write`, `read`, `usleep`, `perror`, `printf`, `open`,
  `ioctl` are the environment.  The bus is an arbitrary state machine
  (`Transport`); every call is appended to the `trace` of the `World`.
-/

namespace HDC1008

/-! ## Constants of the source -/

def REG_TEMP : Nat := 0x00
def REG_HUM : Nat := 0x01
def REG_CFG : Nat := 0x02

/-- Software reset bit. -/
def MSK_CFG_RST : Nat := 0x1 <<< 15
/-- Heater. -/
def MSK_CFG_HEAT : Nat := 0x1 <<< 13
/-- Mode of acquisition. -/
def MSK_CFG_MODE : Nat := 0x1 <<< 12
/-- Battery status. -/
def MSK_CFG_BTST : Nat := 0x1 <<< 11
/-- Temperature measurement resolution. -/
def MSK_CFG_TRES : Nat := 0x1 <<< 10
/-- Humidity measurement resolution. -/
def MSK_CFG_HRES : Nat := 0x3 <<< 8

/-! ## Data model -/

/-- The struct `hdc1008_config`; the `unsigned char` fields hold `0..255`. -/
structure hdc1008_config where
  i2c_bus : Nat
  i2c_address : Nat
  heater : Nat
  mode : Nat
  battery : Nat
  temp_res : Nat
  hum_res : Nat
  deriving DecidableEq, Repr

/-- The initial value of the global `config`: `{ 1, 0x40, 0, 0, 0, 1, 2 }`. -/
def config0 : hdc1008_config :=
  { i2c_bus := 1, i2c_address := 0x40, heater := 0, mode := 0, battery := 0,
    temp_res := 1, hum_res := 2 }

/-- An argument handed to `printf`. -/
inductive Arg
  | str (s : String)
  | int (i : Int)
  | flt (q : ℚ)
  deriving DecidableEq, Repr

/-- The calls into the environment, in program order. -/
inductive Event
  | write (bytes : List Nat)
  | read (count : Nat)
  | usleep (usec : Nat)
  | perror (msg : String)
  | printf (fmt : String) (args : List Arg)
  | close
  deriving DecidableEq, Repr

/-- The bus behind the file descriptor `file`: `write` receives the bytes
handed to `write(2)` and yields its return value; `read` receives the requested
count and yields the return value of `read(2)` and the bytes it stored. -/
structure Transport (σ : Type) where
  write : σ → List Nat → σ × Int
  read : σ → Nat → σ × Int × List Nat

/-- The global state: the device behind `file`, the globals `v` and `config`,
and the trace of environment calls made so far. -/
structure World (σ : Type) where
  dev : σ
  v : Int
  config : hdc1008_config
  trace : List Event

/-! ## C expression helpers -/

/-- Value of a plain `char` holding the byte `b` after promotion to `int`. -/
def charVal (sc : Bool) (b : Nat) : Int :=
  if sc && decide (128 ≤ b % 256) then (b % 256 : Int) - 256 else (b % 256 : Int)

/-- The byte stored when the integer `x` is assigned to a `char` or an
`unsigned char`. -/
def toByte (x : Int) : Nat := (x % 256).toNat

/-- The C value of `e != 0`. -/
def neZero (x : Nat) : Nat := if x ≠ 0 then 1 else 0

/-- The C expression `x & m` for a `long` value `x` and a non-negative constant
`m`: the conjunction of the two's complement representations (64-bit `long`;
for the masks of this program, all below `2^16`, any width from 16 bits up gives
the same value). -/
def cAnd (x : Int) (m : Nat) : Nat := (x % 2 ^ 64).toNat &&& m

/-- The buffer `buf` after `read(2)` stored `data` into it (at most `count`
bytes, the rest of the buffer is left as it was). -/
def fillBuf (buf data : List Nat) (count : Nat) : List Nat :=
  data.take count ++ buf.drop (data.take count).length

/-! ## Environment calls -/

def sysWrite {σ : Type} (T : Transport σ) (w : World σ) (bytes : List Nat) :
    Int × World σ :=
  let r := T.write w.dev bytes
  (r.2, { w with dev := r.1, trace := w.trace ++ [Event.write bytes] })

def sysRead {σ : Type} (T : Transport σ) (w : World σ) (buf : List Nat) (count : Nat) :
    Int × List Nat × World σ :=
  let r := T.read w.dev count
  (r.2.1, fillBuf buf r.2.2 count,
    { w with dev := r.1, trace := w.trace ++ [Event.read count] })

def emit {σ : Type} (w : World σ) (e : Event) : World σ :=
  { w with trace := w.trace ++ [e] }

def perror {σ : Type} (w : World σ) (msg : String) : World σ :=
  emit w (Event.perror msg)

def usleep {σ : Type} (w : World σ) (usec : Nat) : World σ :=
  emit w (Event.usleep usec)

/-- The statement `if (v) printf(fmt, args);`. -/
def vprintf {σ : Type} (w : World σ) (fmt : String) (args : List Arg) : World σ :=
  if w.v ≠ 0 then emit w (Event.printf fmt args) else w

/-! ## The driver functions -/

/-- The expression `(buf[0] << 8) + buf[1]`, which `getConfig`, `getTemp` and
`getHum` all compute from the two bytes read. -/
def rawValue (sc : Bool) (buf : List Nat) : Int :=
  charVal sc (buf.getD 0 0) * 256 + charVal sc (buf.getD 1 0)

/-- The body of the `else` branch of `getConfig`: decode the two bytes read. -/
def decodeConfig (sc : Bool) (buf : List Nat) (c : hdc1008_config) : hdc1008_config :=
  let cfg : Int := rawValue sc buf
  { c with
    heater := neZero (cAnd cfg MSK_CFG_HEAT)
    mode := neZero (cAnd cfg MSK_CFG_MODE)
    battery := neZero (cAnd cfg MSK_CFG_BTST)
    temp_res := neZero (cAnd cfg MSK_CFG_TRES)
    hum_res := toByte ((cAnd cfg MSK_CFG_HRES >>> 8 : Nat) : Int) }

def getConfig {σ : Type} (T : Transport σ) (sc : Bool) (w : World σ) : World σ :=
  let buf : List Nat := [REG_CFG, 0]
  let r := sysWrite T w (buf.take 1)
  if r.1 ≠ 1 then
    perror r.2 "Failed to write to i2c bus"
  else
    let q := sysRead T r.2 buf 2
    if q.1 ≠ 2 then
      perror q.2.2 "Failed to read from i2c bus"
    else
      { q.2.2 with config := decodeConfig sc q.2.1 q.2.2.config }

/-- The value `cfg` computed in the first line of `writeConfig`. -/
def encodeConfig (c : hdc1008_config) : Nat :=
  ((c.heater <<< 13) &&& MSK_CFG_HEAT) + ((c.mode <<< 12) &&& MSK_CFG_MODE)
    + ((c.temp_res <<< 10) &&& MSK_CFG_TRES) + ((c.hum_res <<< 8) &&& MSK_CFG_HRES)

/-- The three bytes `buf` that `writeConfig` hands to `write`. -/
def configBytes (c : hdc1008_config) : List Nat :=
  let cfg := encodeConfig c
  let hbyte := toByte (((cfg >>> 8) &&& 0xFF : Nat) : Int)
  let lbyte := 0
  [REG_CFG, hbyte, lbyte]

def writeConfig {σ : Type} (T : Transport σ) (sc : Bool) (w : World σ) : World σ :=
  let buf := configBytes w.config
  let r := sysWrite T w buf
  if r.1 ≠ 3 then
    perror r.2 "  Failed to set pointer register to config"
  else
    vprintf r.2 "config written: 0x%02x%02x\n"
      [Arg.int (charVal sc (buf.getD 1 0)), Arg.int (charVal sc (buf.getD 2 0))]

/-- The expression `config.temp_res==0?14:11` of `printConfig`. -/
def tempResBits (c : hdc1008_config) : Int := if c.temp_res = 0 then 14 else 11

/-- The expression `config.hum_res==0?14:config.hum_res==1?11:8` of `printConfig`. -/
def humResBits (c : hdc1008_config) : Int :=
  if c.hum_res = 0 then 14 else if c.hum_res = 1 then 11 else 8

def printConfig {σ : Type} (w : World σ) : World σ :=
  let c := w.config
  let w := vprintf w "heater                 = %s\n"
    [Arg.str (if c.heater = 0 then "disabled" else "enabled")]
  let w := vprintf w "mode                   = %s\n"
    [Arg.str (if c.mode = 0 then "temperature or humidity is acquired"
      else "temperature and humidity are acquired in sequence. temp first.")]
  let w := vprintf w "battery                = %s\n"
    [Arg.str (if c.battery = 0 then ">2.8V" else "<2.8V")]
  let w := vprintf w "temperature resolution = %i bit\n" [Arg.int (tempResBits c)]
  vprintf w "humidity resolution    = %i bit\n" [Arg.int (humResBits c)]

def getTemp {σ : Type} (T : Transport σ) (sc : Bool) (w : World σ) : ℚ × World σ :=
  let buf : List Nat := [REG_TEMP, 0]
  let r := sysWrite T w (buf.take 1)
  if r.1 ≠ 1 then
    (0, perror r.2 "Failed to write to i2c bus")
  else
    let w1 := usleep r.2 (7 * 1000)
    let q := sysRead T w1 buf 2
    if q.1 ≠ 2 then
      (0, perror q.2.2 "Failed to read from i2c bus")
    else
      let raw_temp : Int := rawValue sc q.2.1
      ((((raw_temp : ℚ) / 65536) * 165) - 40, q.2.2)

def getHum {σ : Type} (T : Transport σ) (sc : Bool) (w : World σ) : ℚ × World σ :=
  let buf : List Nat := [REG_HUM, 0]
  let r := sysWrite T w (buf.take 1)
  if r.1 ≠ 1 then
    (0, perror r.2 "Failed to write to i2c bus")
  else
    let w1 := usleep r.2 (7 * 1000)
    let q := sysRead T w1 buf 2
    if q.1 ≠ 2 then
      (0, perror q.2.2 "Failed to read from i2c bus")
    else
      let raw_hum : Int := rawValue sc q.2.1
      (((raw_hum : ℚ) / 65536) * 100, q.2.2)

/-! ## The command line (`main`) -/

/-- One result of `getopt(argc, argv, "vthc?i:a:m:e:")`: the option character
it returned and the value of `optarg`. -/
structure Opt where
  c : Char
  optarg : String
  deriving DecidableEq, Repr

/-- The local variables of `main`. -/
structure Locals where
  readTemp : Int
  readHum : Int
  readConfig : Int
  mode : Int
  opt_heater : Int
  deriving DecidableEq, Repr

/-- The initial values of the locals of `main`. -/
def locals0 : Locals :=
  { readTemp := 0, readHum := 0, readConfig := 0, mode := -1, opt_heater := -1 }

/-- The libc and kernel services `main` uses besides the bus: whether
`open("/dev/i2c-<bus>")` and `ioctl(file, I2C_SLAVE, address)` succeed. -/
structure Sys where
  openDev : Nat → Bool
  ioctlSlave : Nat → Bool

/-- The libc predicate `isspace` in the C locale. -/
def isSpaceChar (c : Char) : Bool :=
  c.toNat = 32 || (9 ≤ c.toNat && c.toNat ≤ 13)

/-- Value of the longest prefix of decimal digits, in the given accumulator. -/
def digitsVal : List Char → Nat → Nat
  | [], acc => acc
  | c :: cs, acc =>
    if c.isDigit then digitsVal cs (acc * 10 + (c.toNat - 48)) else acc

/-- The libc function `atoi` (results within the range of `int`). -/
def atoi (s : String) : Int :=
  match s.toList.dropWhile isSpaceChar with
  | '-' :: r => - (digitsVal r 0 : Int)
  | '+' :: r => (digitsVal r 0 : Int)
  | r => (digitsVal r 0 : Int)

def hexDigit (c : Char) : Option Nat :=
  if c.isDigit then some (c.toNat - 48)
  else if 97 ≤ c.toNat && c.toNat ≤ 102 then some (c.toNat - 87)
  else if 65 ≤ c.toNat && c.toNat ≤ 70 then some (c.toNat - 55)
  else none

def hexVal : List Char → Nat → Nat
  | [], acc => acc
  | c :: cs, acc =>
    match hexDigit c with
    | some d => hexVal cs (acc * 16 + d)
    | none => acc

def stripHexPrefix : List Char → List Char
  | '0' :: x :: d :: r =>
    if (x = 'x' || x = 'X') && (hexDigit d).isSome then d :: r else '0' :: x :: d :: r
  | r => r

/-- The libc call `strtol(s, NULL, 16)` (results within the range of `long`). -/
def strtol16 (s : String) : Int :=
  match s.toList.dropWhile isSpaceChar with
  | '-' :: r => - (hexVal (stripHexPrefix r) 0 : Int)
  | '+' :: r => (hexVal (stripHexPrefix r) 0 : Int)
  | r => (hexVal (stripHexPrefix r) 0 : Int)

/-- Conversion of an `int` / `long` to `unsigned int`. -/
def toUInt (x : Int) : Nat := (x % 4294967296).toNat

def printUsage {σ : Type} (w : World σ) : World σ :=
  let w := emit w (Event.printf
    "hdc1008 - communicate with HDC1008-sensor via i2c - (c)2015, Thomas Hangstörfer\n" [])
  let w := emit w (Event.printf "Usage: hdc1008 [param]\n" [])
  let w := emit w (Event.printf
    "\t-a <address>: address of the device on the i2c-bus (default: 0x40)\n" [])
  let w := emit w (Event.printf
    "\t-i <bus-num>: number of the i2c-bus (default: 1 -> /dev/i2c-1)\n" [])
  let w := emit w (Event.printf
    "\t-m <mode>   : mode = 0: Temperature or Humidity is acquired. (default)\n" [])
  let w := emit w (Event.printf
    "\t            : mode = 1: Temperature and Humidity are acquired in sequence, Temperature first.\n" [])
  let w := emit w (Event.printf "\t-e <heat>   : heat = 0: Heater disabled. (default)\n" [])
  let w := emit w (Event.printf "\t            : heat = 1: Heater enabled.\n" [])
  let w := emit w (Event.printf "\t-t : read and print temperature\n" [])
  let w := emit w (Event.printf "\t-h : read and print humidity\n" [])
  let w := emit w (Event.printf
    "\t-c : read configuration from device. Write config to device otherwise.\n" [])
  let w := emit w (Event.printf "\t-v : be verbose\n" [])
  emit w (Event.printf "\n" [])

/-- What one pass through the `switch` of `main` leads to: the process ends
(`exit(code)` or `return code`), or the loop goes on. -/
inductive Step (σ : Type)
  | stop (code : Int) (w : World σ)
  | next (l : Locals) (w : World σ)

/-- The statements under the label `case 'e':`. -/
def caseE {σ : Type} (o : Opt) (l : Locals) (w : World σ) : Step σ :=
  let opt_heater := atoi o.optarg
  if opt_heater > 1 ∨ opt_heater < 0 then
    Step.stop 1 (emit w (Event.printf "Error: invalid param for heater: %i\n" [Arg.int opt_heater]))
  else
    Step.next { l with opt_heater := opt_heater } w

/-- The `switch (c)` of `main` for one option.  The statements of `case 'm':`
do not end in `break`, so control runs on into `case 'e':`. -/
def optStep {σ : Type} (o : Opt) (l : Locals) (w : World σ) : Step σ :=
  if o.c = 'v' then Step.next l { w with v := 1 }
  else if o.c = 't' then Step.next { l with readTemp := 1 } w
  else if o.c = 'h' then Step.next { l with readHum := 1 } w
  else if o.c = 'c' then Step.next { l with readConfig := 1 } w
  else if o.c = 'i' then
    Step.next l { w with config := { w.config with i2c_bus := toUInt (atoi o.optarg) } }
  else if o.c = 'm' then
    let mode := atoi o.optarg
    if mode > 1 ∨ mode < 0 then
      Step.stop 1 (emit w (Event.printf "Error: invalid param for mode: %i\n" [Arg.int mode]))
    else
      caseE o { l with mode := mode } w
  else if o.c = 'e' then caseE o l w
  else if o.c = 'a' then
    Step.next l { w with config := { w.config with i2c_address := toUInt (strtol16 o.optarg) } }
  else if o.c = '?' then Step.stop 1 (printUsage w)
  else Step.next l w

/-- The `while ((c = getopt (...)) != -1)` loop over the options found. -/
def optLoop {σ : Type} : List Opt → Locals → World σ → Step σ
  | [], l, w => Step.next l w
  | o :: os, l, w =>
    match optStep o l w with
    | Step.stop code w1 => Step.stop code w1
    | Step.next l1 w1 => optLoop os l1 w1

/-- The part of `main` after the bus has been opened and addressed. -/
def mainBody {σ : Type} (T : Transport σ) (sc : Bool) (l : Locals) (w : World σ) :
    Int × World σ :=
  let w :=
    if l.readConfig ≠ 0 then
      printConfig (getConfig T sc w)
    else
      let w := if l.mode ≠ -1 then { w with config := { w.config with mode := toByte l.mode } } else w
      let w := if l.opt_heater ≠ -1 then
        { w with config := { w.config with heater := toByte l.opt_heater } } else w
      let w := { w with config := { w.config with temp_res := 1 } }
      let w := { w with config := { w.config with hum_res := 2 } }
      let w := if w.v ≠ 0 then printConfig w else w
      writeConfig T sc w
  let w :=
    if l.readHum ≠ 0 then
      let r := getHum T sc w
      if w.v ≠ 0 then emit r.2 (Event.printf "Humidity: %f%%\n" [Arg.flt r.1])
      else emit r.2 (Event.printf "%f " [Arg.flt r.1])
    else w
  let w :=
    if l.readTemp ≠ 0 then
      let r := getTemp T sc w
      if w.v ≠ 0 then emit r.2 (Event.printf "Temperature: %f°C\n" [Arg.flt r.1])
      else emit r.2 (Event.printf "%f " [Arg.flt r.1])
    else w
  let w := emit w Event.close
  let w := emit w (Event.printf "\n" [])
  (0, w)

/-- The function `main`: `opts` are the successive results of `getopt` on the
command line; the result is the exit status and the final world.  The file name
built by `snprintf` is kept as its format and its argument. -/
def main {σ : Type} (S : Sys) (T : Transport σ) (sc : Bool) (opts : List Opt)
    (w : World σ) : Int × World σ :=
  match optLoop opts locals0 w with
  | Step.stop code w1 => (code, w1)
  | Step.next l w1 =>
    let w2 := vprintf w1 "open %s\n" [Arg.str "/dev/i2c-%i", Arg.int w1.config.i2c_bus]
    if ¬ S.openDev w2.config.i2c_bus then
      (1, perror w2 "Failed to open the i2c bus")
    else if ¬ S.ioctlSlave w2.config.i2c_address then
      (1, perror w2 "Failed to acquire bus access and/or talk to slave.\n")
    else
      mainBody T sc l w2

/-- The byte sequences handed to `write(2)`, in order. -/
def writesOf : List Event → List (List Nat)
  | [] => []
  | Event.write bytes :: es => bytes :: writesOf es
  | _ :: es => writesOf es

/-! ## Test doubles for the bus -/

/-- A bus that accepts every write in full and answers every read with the two
bytes `hi`, `lo`. -/
def bytesBus (hi lo : Nat) : Transport Unit :=
  { write := fun _ b => ((), (b.length : Int)), read := fun _ _ => ((), 2, [hi, lo]) }

/-- A bus on which every transfer fails (`write` and `read` return `-1`). -/
def deadBus : Transport Unit :=
  { write := fun _ _ => ((), -1), read := fun _ _ => ((), -1, []) }

/-- A bus that accepts every write in full and delivers only one byte on a read. -/
def shortReadBus : Transport Unit :=
  { write := fun _ b => ((), (b.length : Int)), read := fun _ _ => ((), 1, [0x66]) }

/-- The world at program start: `v = 0`, the initial `config`, no call made. -/
def world0 : World Unit := { dev := (), v := 0, config := config0, trace := [] }

/-- In-memory fake device of the round-trip property: it keeps the register
pointer and the two register bytes last sent after a pointer byte, and answers
a 2-byte read with these two bytes. -/
structure FakeDev where
  ptr : Nat
  hi : Nat
  lo : Nat
  deriving DecidableEq, Repr

def fakeBus : Transport FakeDev :=
  { write := fun d b =>
      match b with
      | [p] => ({ d with ptr := p }, 1)
      | [p, h, l] => ({ ptr := p, hi := h, lo := l }, 3)
      | _ => (d, -1)
    read := fun d n => if n = 2 then (d, 2, [d.hi, d.lo]) else (d, -1, []) }

/-- A world over the fake device holding the configuration `c`. -/
def fakeWorld (c : hdc1008_config) : World FakeDev :=
  { dev := { ptr := 0, hi := 0xFF, lo := 0xFF }, v := 1, config := c, trace := [] }

/-- A world over a stateless bus holding the configuration `c`. -/
def worldOf (c : hdc1008_config) : World Unit :=
  { dev := (), v := 0, config := c, trace := [] }

/-- The transport and clock calls of a trace, console output left out. -/
def busEvents : List Event → List Event
  | [] => []
  | Event.write b :: es => Event.write b :: busEvents es
  | Event.read n :: es => Event.read n :: busEvents es
  | Event.usleep u :: es => Event.usleep u :: busEvents es
  | _ :: es => busEvents es

/-- An environment in which the bus can be opened and addressed. -/
def sysOk : Sys := { openDev := fun _ => true, ioctlSlave := fun _ => true }

/-! ## Bit-level lemmas -/

theorem neZero_and_two_pow (n k : Nat) : neZero (n &&& 2 ^ k) = n / 2 ^ k % 2 := by
  unfold neZero
  rw [Nat.and_two_pow, Nat.testBit_to_div_mod]
  have h2 : 0 < 2 ^ k := Nat.pow_pos (by decide)
  rcases Nat.mod_two_eq_zero_or_one (n / 2 ^ k) with h | h
  · simp [h]
  · simp [h, Nat.ne_of_gt h2]

theorem and_hres_shift (n : Nat) : (n &&& (0x3 <<< 8)) >>> 8 = n / 256 % 4 := by
  have h : (n &&& (0x3 <<< 8)) >>> 8 = (n >>> 8) &&& (2 ^ 2 - 1) := by
    apply Nat.eq_of_testBit_eq
    intro i
    simp only [Nat.testBit_shiftRight, Nat.testBit_and, Nat.testBit_two_pow_sub_one]
    congr 1
    rcases Nat.lt_or_ge i 2 with hi | hi
    · interval_cases i <;> simp <;> decide
    · have hlt : (0x3 <<< 8 : Nat) < 2 ^ (8 + i) :=
        Nat.lt_of_lt_of_le (by decide : (0x3 <<< 8 : Nat) < 2 ^ 10)
          (Nat.pow_le_pow_right (by decide) (by omega))
      rw [Nat.testBit_lt_two_pow hlt]
      simp
      omega
  rw [h, Nat.and_pow_two_sub_one_eq_mod, Nat.shiftRight_eq_div_pow]

theorem testBit_high_false (m i : Nat) (hm : m < 2 ^ 64) (hi : ¬ i < 64) :
    m.testBit i = false := by
  apply Nat.testBit_lt_two_pow
  exact Nat.lt_of_lt_of_le hm (Nat.pow_le_pow_right (by decide) (by omega))

/-- The mask helper `cAnd` computes the two's complement conjunction of
unbounded integers, `Int.land`, for every mask below `2^64`. -/
theorem cAnd_eq_land (x : Int) (m : Nat) (hm : m < 2 ^ 64) :
    ((cAnd x m : Nat) : Int) = Int.land x (m : Int) := by
  unfold cAnd
  cases x with
  | ofNat n =>
    show (((Int.ofNat n % 2 ^ 64).toNat &&& m : Nat) : Int) = ((n &&& m : Nat) : Int)
    congr 1
    have e : (Int.ofNat n % 2 ^ 64).toNat = n % 2 ^ 64 := by
      simp only [Int.ofNat_eq_coe]
      omega
    rw [e]
    apply Nat.eq_of_testBit_eq
    intro i
    rw [Nat.testBit_and, Nat.testBit_and, Nat.testBit_mod_two_pow]
    by_cases hi : i < 64
    · simp [hi]
    · simp [hi, testBit_high_false m i hm hi]
  | negSucc n =>
    show (((Int.negSucc n % 2 ^ 64).toNat &&& m : Nat) : Int) = ((Nat.ldiff m n : Nat) : Int)
    congr 1
    have e : (Int.negSucc n % 2 ^ 64).toNat = 2 ^ 64 - (n % 2 ^ 64 + 1) := by
      simp only [Int.negSucc_eq]
      omega
    rw [e]
    apply Nat.eq_of_testBit_eq
    intro i
    rw [Nat.testBit_and, Nat.testBit_ldiff,
      Nat.testBit_two_pow_sub_succ (Nat.mod_lt _ (by decide)), Nat.testBit_mod_two_pow]
    by_cases hi : i < 64
    · simp [hi, Bool.and_comm]
    · simp [hi, testBit_high_false m i hm hi]

/-- The low 16 bits of the two's complement representation of `x`, which are
all that the masks of the configuration register look at. -/
theorem cAnd_two_pow (x : Int) (k : Nat) :
    neZero (cAnd x (2 ^ k)) = (x % 2 ^ 64).toNat / 2 ^ k % 2 := by
  unfold cAnd
  exact neZero_and_two_pow _ _

theorem charVal_unsigned (b : Nat) (hb : b < 256) : charVal false b = (b : Int) := by
  unfold charVal
  simp only [Bool.false_and, Bool.false_eq_true, if_false]
  omega

theorem rawValue_unsigned (hi lo : Nat) (hh : hi < 256) (hl : lo < 256) :
    rawValue false [hi, lo] = ((256 * hi + lo : Nat) : Int) := by
  simp [rawValue, charVal_unsigned, hh, hl]
  ring

theorem rawValue_bounds (sc : Bool) (buf : List Nat) :
    -32896 ≤ rawValue sc buf ∧ rawValue sc buf ≤ 65535 := by
  have key : ∀ b : Nat, -128 ≤ charVal sc b ∧ charVal sc b ≤ 255 := by
    intro b
    unfold charVal
    by_cases h : 128 ≤ b % 256 <;> cases sc <;> simp [h] <;> omega
  unfold rawValue
  have h0 := key (buf.getD 0 0)
  have h1 := key (buf.getD 1 0)
  omega

/-! ## Unfolding the measurement functions -/

theorem getTemp_write_failed {σ : Type} (T : Transport σ) (sc : Bool) (w : World σ)
    (hw : (T.write w.dev [REG_TEMP]).2 ≠ 1) :
    getTemp T sc w =
      (0, { dev := (T.write w.dev [REG_TEMP]).1, v := w.v, config := w.config,
            trace := w.trace ++ [Event.write [REG_TEMP],
              Event.perror "Failed to write to i2c bus"] }) := by
  simp [getTemp, sysWrite, perror, emit, hw]

theorem getHum_write_failed {σ : Type} (T : Transport σ) (sc : Bool) (w : World σ)
    (hw : (T.write w.dev [REG_HUM]).2 ≠ 1) :
    getHum T sc w =
      (0, { dev := (T.write w.dev [REG_HUM]).1, v := w.v, config := w.config,
            trace := w.trace ++ [Event.write [REG_HUM],
              Event.perror "Failed to write to i2c bus"] }) := by
  simp [getHum, sysWrite, perror, emit, hw]

theorem getTemp_read_failed {σ : Type} (T : Transport σ) (sc : Bool) (w : World σ)
    (hw : (T.write w.dev [REG_TEMP]).2 = 1)
    (hr : (T.read (T.write w.dev [REG_TEMP]).1 2).2.1 ≠ 2) :
    getTemp T sc w =
      (0, { dev := (T.read (T.write w.dev [REG_TEMP]).1 2).1, v := w.v, config := w.config,
            trace := w.trace ++ [Event.write [REG_TEMP], Event.usleep 7000, Event.read 2,
              Event.perror "Failed to read from i2c bus"] }) := by
  simp [getTemp, sysWrite, sysRead, usleep, perror, emit, hw, hr]

theorem getHum_read_failed {σ : Type} (T : Transport σ) (sc : Bool) (w : World σ)
    (hw : (T.write w.dev [REG_HUM]).2 = 1)
    (hr : (T.read (T.write w.dev [REG_HUM]).1 2).2.1 ≠ 2) :
    getHum T sc w =
      (0, { dev := (T.read (T.write w.dev [REG_HUM]).1 2).1, v := w.v, config := w.config,
            trace := w.trace ++ [Event.write [REG_HUM], Event.usleep 7000, Event.read 2,
              Event.perror "Failed to read from i2c bus"] }) := by
  simp [getHum, sysWrite, sysRead, usleep, perror, emit, hw, hr]

theorem getTemp_read_ok {σ : Type} (T : Transport σ) (sc : Bool) (w : World σ)
    (hw : (T.write w.dev [REG_TEMP]).2 = 1)
    (hr : (T.read (T.write w.dev [REG_TEMP]).1 2).2.1 = 2) :
    getTemp T sc w =
      ((((rawValue sc (fillBuf [REG_TEMP, 0]
            (T.read (T.write w.dev [REG_TEMP]).1 2).2.2 2) : Int) : ℚ) / 65536) * 165 - 40,
       { dev := (T.read (T.write w.dev [REG_TEMP]).1 2).1, v := w.v, config := w.config,
         trace := w.trace ++ [Event.write [REG_TEMP], Event.usleep 7000, Event.read 2] }) := by
  simp [getTemp, sysWrite, sysRead, usleep, emit, hw, hr]

theorem getHum_read_ok {σ : Type} (T : Transport σ) (sc : Bool) (w : World σ)
    (hw : (T.write w.dev [REG_HUM]).2 = 1)
    (hr : (T.read (T.write w.dev [REG_HUM]).1 2).2.1 = 2) :
    getHum T sc w =
      ((((rawValue sc (fillBuf [REG_HUM, 0]
            (T.read (T.write w.dev [REG_HUM]).1 2).2.2 2) : Int) : ℚ) / 65536) * 100,
       { dev := (T.read (T.write w.dev [REG_HUM]).1 2).1, v := w.v, config := w.config,
         trace := w.trace ++ [Event.write [REG_HUM], Event.usleep 7000, Event.read 2] }) := by
  simp [getHum, sysWrite, sysRead, usleep, emit, hw, hr]

theorem fillBuf_two (buf : List Nat) (hi lo : Nat) : fillBuf buf [hi, lo] 2 = [hi, lo] ++ buf.drop 2 := by
  simp [fillBuf]

theorem rawValue_two (sc : Bool) (hi lo : Nat) (rest : List Nat) :
    rawValue sc ([hi, lo] ++ rest) = rawValue sc [hi, lo] := by
  simp [rawValue]

/-! ## Conversion of the raw measurement -/

theorem getTemp_of_bytes {σ : Type} (T : Transport σ) (sc : Bool) (w : World σ) (hi lo : Nat)
    (hw : (T.write w.dev [REG_TEMP]).2 = 1)
    (hr : (T.read (T.write w.dev [REG_TEMP]).1 2).2 = (2, [hi, lo])) :
    (getTemp T sc w).1 = (((rawValue sc [hi, lo] : Int) : ℚ) / 65536) * 165 - 40 := by
  have h1 : (T.read (T.write w.dev [REG_TEMP]).1 2).2.1 = 2 := by rw [hr]
  have h2 : (T.read (T.write w.dev [REG_TEMP]).1 2).2.2 = [hi, lo] := by rw [hr]
  rw [getTemp_read_ok T sc w hw h1, h2, fillBuf_two, rawValue_two]

theorem getHum_of_bytes {σ : Type} (T : Transport σ) (sc : Bool) (w : World σ) (hi lo : Nat)
    (hw : (T.write w.dev [REG_HUM]).2 = 1)
    (hr : (T.read (T.write w.dev [REG_HUM]).1 2).2 = (2, [hi, lo])) :
    (getHum T sc w).1 = (((rawValue sc [hi, lo] : Int) : ℚ) / 65536) * 100 := by
  have h1 : (T.read (T.write w.dev [REG_HUM]).1 2).2.1 = 2 := by rw [hr]
  have h2 : (T.read (T.write w.dev [REG_HUM]).1 2).2.2 = [hi, lo] := by rw [hr]
  rw [getHum_read_ok T sc w hw h1, h2, fillBuf_two, rawValue_two]

/-- Where plain `char` is unsigned, `getTemp` computes the data sheet formula on
the big-endian value of the two bytes read. -/
theorem getTemp_unsigned_char {σ : Type} (T : Transport σ) (w : World σ) (hi lo : Nat)
    (hh : hi < 256) (hl : lo < 256)
    (hw : (T.write w.dev [REG_TEMP]).2 = 1)
    (hr : (T.read (T.write w.dev [REG_TEMP]).1 2).2 = (2, [hi, lo])) :
    (getTemp T false w).1 = (((256 * hi + lo : Nat) : ℚ) / 65536) * 165 - 40 := by
  rw [getTemp_of_bytes T false w hi lo hw hr, rawValue_unsigned hi lo hh hl, Int.cast_natCast]

/-- Where plain `char` is unsigned, `getHum` computes the data sheet formula on
the big-endian value of the two bytes read. -/
theorem getHum_unsigned_char {σ : Type} (T : Transport σ) (w : World σ) (hi lo : Nat)
    (hh : hi < 256) (hl : lo < 256)
    (hw : (T.write w.dev [REG_HUM]).2 = 1)
    (hr : (T.read (T.write w.dev [REG_HUM]).1 2).2 = (2, [hi, lo])) :
    (getHum T false w).1 = (((256 * hi + lo : Nat) : ℚ) / 65536) * 100 := by
  rw [getHum_of_bytes T false w hi lo hw hr, rawValue_unsigned hi lo hh hl, Int.cast_natCast]

/-- Where plain `char` is unsigned, every temperature lies in `[-40, 125)` and
every humidity in `[0, 100)`. -/
theorem range_unsigned_char {σ : Type} (T : Transport σ) (w : World σ) (hi lo : Nat)
    (hh : hi < 256) (hl : lo < 256)
    (hwt : (T.write w.dev [REG_TEMP]).2 = 1)
    (hrt : (T.read (T.write w.dev [REG_TEMP]).1 2).2 = (2, [hi, lo]))
    (hwh : (T.write w.dev [REG_HUM]).2 = 1)
    (hrh : (T.read (T.write w.dev [REG_HUM]).1 2).2 = (2, [hi, lo])) :
    (-40 ≤ (getTemp T false w).1 ∧ (getTemp T false w).1 < 125) ∧
    (0 ≤ (getHum T false w).1 ∧ (getHum T false w).1 < 100) := by
  rw [getTemp_unsigned_char T w hi lo hh hl hwt hrt, getHum_unsigned_char T w hi lo hh hl hwh hrh]
  have h0 : (0 : ℚ) ≤ ((256 * hi + lo : Nat) : ℚ) := by exact_mod_cast Nat.zero_le _
  have h1 : ((256 * hi + lo : Nat) : ℚ) < 65536 := by
    have : 256 * hi + lo < 65536 := by omega
    exact_mod_cast this
  refine ⟨⟨?_, ?_⟩, ?_, ?_⟩
  · linarith [div_nonneg h0 (by norm_num : (0 : ℚ) ≤ 65536)]
  · have : ((256 * hi + lo : Nat) : ℚ) / 65536 < 1 := by
      rw [div_lt_one (by norm_num)]
      exact h1
    linarith
  · exact mul_nonneg (div_nonneg h0 (by norm_num)) (by norm_num)
  · have : ((256 * hi + lo : Nat) : ℚ) / 65536 < 1 := by
      rw [div_lt_one (by norm_num)]
      exact h1
    linarith

/-- Where plain `char` is unsigned, both conversions are strictly increasing in
the raw value. -/
theorem monotone_unsigned_char {σ : Type} (T T' : Transport σ) (w w' : World σ)
    (hi lo hi' lo' : Nat)
    (hh : hi < 256) (hl : lo < 256) (hh' : hi' < 256) (hl' : lo' < 256)
    (hlt : 256 * hi + lo < 256 * hi' + lo')
    (hwt : (T.write w.dev [REG_TEMP]).2 = 1)
    (hrt : (T.read (T.write w.dev [REG_TEMP]).1 2).2 = (2, [hi, lo]))
    (hwh : (T.write w.dev [REG_HUM]).2 = 1)
    (hrh : (T.read (T.write w.dev [REG_HUM]).1 2).2 = (2, [hi, lo]))
    (hwt' : (T'.write w'.dev [REG_TEMP]).2 = 1)
    (hrt' : (T'.read (T'.write w'.dev [REG_TEMP]).1 2).2 = (2, [hi', lo']))
    (hwh' : (T'.write w'.dev [REG_HUM]).2 = 1)
    (hrh' : (T'.read (T'.write w'.dev [REG_HUM]).1 2).2 = (2, [hi', lo'])) :
    (getTemp T false w).1 < (getTemp T' false w').1 ∧
    (getHum T false w).1 < (getHum T' false w').1 := by
  rw [getTemp_unsigned_char T w hi lo hh hl hwt hrt,
    getHum_unsigned_char T w hi lo hh hl hwh hrh,
    getTemp_unsigned_char T' w' hi' lo' hh' hl' hwt' hrt',
    getHum_unsigned_char T' w' hi' lo' hh' hl' hwh' hrh']
  have h : ((256 * hi + lo : Nat) : ℚ) < ((256 * hi' + lo' : Nat) : ℚ) := by
    exact_mod_cast hlt
  have hd : ((256 * hi + lo : Nat) : ℚ) / 65536 < ((256 * hi' + lo' : Nat) : ℚ) / 65536 :=
    div_lt_div_of_pos_right h (by norm_num)
  constructor <;> linarith

/-- The value returned by `getTemp` is `m * 2^-16` for an integer `m` of
magnitude below `2^24`: it is a binary32 number, and so is every intermediate
value of the computation in `double`. -/
theorem getTemp_value_binary32 {σ : Type} (T : Transport σ) (sc : Bool) (w : World σ) :
    ∃ m : Int, -(2 ^ 24) < m ∧ m < 2 ^ 24 ∧ (getTemp T sc w).1 = (m : ℚ) / 2 ^ 16 := by
  by_cases hw : (T.write w.dev [REG_TEMP]).2 = 1
  · by_cases hr : (T.read (T.write w.dev [REG_TEMP]).1 2).2.1 = 2
    · rw [getTemp_read_ok T sc w hw hr]
      obtain ⟨hlo, hhi⟩ := rawValue_bounds sc
        (fillBuf [REG_TEMP, 0] (T.read (T.write w.dev [REG_TEMP]).1 2).2.2 2)
      refine ⟨rawValue sc (fillBuf [REG_TEMP, 0] (T.read (T.write w.dev [REG_TEMP]).1 2).2.2 2)
        * 165 - 2621440, by omega, by omega, ?_⟩
      push_cast
      ring
    · rw [getTemp_read_failed T sc w hw hr]
      exact ⟨0, by norm_num, by norm_num, by norm_num⟩
  · rw [getTemp_write_failed T sc w hw]
    exact ⟨0, by norm_num, by norm_num, by norm_num⟩

/-- The value returned by `getHum` is `m * 2^-16` for an integer `m` of
magnitude below `2^24`: it is a binary32 number. -/
theorem getHum_value_binary32 {σ : Type} (T : Transport σ) (sc : Bool) (w : World σ) :
    ∃ m : Int, -(2 ^ 24) < m ∧ m < 2 ^ 24 ∧ (getHum T sc w).1 = (m : ℚ) / 2 ^ 16 := by
  by_cases hw : (T.write w.dev [REG_HUM]).2 = 1
  · by_cases hr : (T.read (T.write w.dev [REG_HUM]).1 2).2.1 = 2
    · rw [getHum_read_ok T sc w hw hr]
      obtain ⟨hlo, hhi⟩ := rawValue_bounds sc
        (fillBuf [REG_HUM, 0] (T.read (T.write w.dev [REG_HUM]).1 2).2.2 2)
      refine ⟨rawValue sc (fillBuf [REG_HUM, 0] (T.read (T.write w.dev [REG_HUM]).1 2).2.2 2)
        * 100, by omega, by omega, ?_⟩
      push_cast
      ring
    · rw [getHum_read_failed T sc w hw hr]
      exact ⟨0, by norm_num, by norm_num, by norm_num⟩
  · rw [getHum_write_failed T sc w hw]
    exact ⟨0, by norm_num, by norm_num, by norm_num⟩

/-! ## The configuration register codec -/

theorem shiftLeft_and_two_pow (x k : Nat) : (x <<< k) &&& 2 ^ k = (x % 2) * 2 ^ k := by
  rw [Nat.and_two_pow, Nat.testBit_shiftLeft]
  simp only [ge_iff_le, Nat.le_refl, decide_True, Bool.true_and, Nat.sub_self, Nat.testBit_zero]
  rcases Nat.mod_two_eq_zero_or_one x with h | h <;> simp [h]

theorem shiftLeft_and_hres (x : Nat) : (x <<< 8) &&& (0x3 <<< 8) = (x % 4) * 256 := by
  have h : (x <<< 8) &&& (0x3 <<< 8) = (x &&& (2 ^ 2 - 1)) <<< 8 := by
    apply Nat.eq_of_testBit_eq
    intro i
    simp only [Nat.testBit_shiftLeft, Nat.testBit_and, Nat.testBit_two_pow_sub_one]
    by_cases hi : 8 ≤ i
    · have h3 : (3 : Nat) = 2 ^ 2 - 1 := by decide
      simp only [hi, ge_iff_le, decide_True, Bool.true_and]
      rw [h3, Nat.testBit_two_pow_sub_one]
    · simp [hi]
  rw [h, Nat.and_pow_two_sub_one_eq_mod, Nat.shiftLeft_eq]

/-- The register value `writeConfig` computes, as arithmetic on the fields. -/
theorem encodeConfig_eq (c : hdc1008_config) :
    encodeConfig c =
      (c.heater % 2) * 2 ^ 13 + (c.mode % 2) * 2 ^ 12 + (c.temp_res % 2) * 2 ^ 10
        + (c.hum_res % 4) * 256 := by
  unfold encodeConfig MSK_CFG_HEAT MSK_CFG_MODE MSK_CFG_TRES MSK_CFG_HRES
  have e13 : (0x1 <<< 13 : Nat) = 2 ^ 13 := by decide
  have e12 : (0x1 <<< 12 : Nat) = 2 ^ 12 := by decide
  have e10 : (0x1 <<< 10 : Nat) = 2 ^ 10 := by decide
  rw [e13, e12, e10, shiftLeft_and_two_pow, shiftLeft_and_two_pow, shiftLeft_and_two_pow,
    shiftLeft_and_hres]

theorem configBytes_eq (c : hdc1008_config) :
    configBytes c = [0x02, encodeConfig c / 256 % 256, 0x00] := by
  unfold configBytes toByte REG_CFG
  have h255 : (0xFF : Nat) = 2 ^ 8 - 1 := by decide
  simp only [h255, Nat.and_pow_two_sub_one_eq_mod, Nat.shiftRight_eq_div_pow]
  congr 2
  omega

/-- The fields `getConfig` stores, as arithmetic on the low 16 bits of the
two's complement representation of `cfg`. -/
theorem decodeConfig_eq (sc : Bool) (buf : List Nat) (c : hdc1008_config) :
    decodeConfig sc buf c =
      { c with
        heater := (rawValue sc buf % 2 ^ 64).toNat / 2 ^ 13 % 2
        mode := (rawValue sc buf % 2 ^ 64).toNat / 2 ^ 12 % 2
        battery := (rawValue sc buf % 2 ^ 64).toNat / 2 ^ 11 % 2
        temp_res := (rawValue sc buf % 2 ^ 64).toNat / 2 ^ 10 % 2
        hum_res := (rawValue sc buf % 2 ^ 64).toNat / 256 % 4 } := by
  unfold decodeConfig MSK_CFG_HEAT MSK_CFG_MODE MSK_CFG_BTST MSK_CFG_TRES MSK_CFG_HRES
  have e13 : (0x1 <<< 13 : Nat) = 2 ^ 13 := by decide
  have e12 : (0x1 <<< 12 : Nat) = 2 ^ 12 := by decide
  have e11 : (0x1 <<< 11 : Nat) = 2 ^ 11 := by decide
  have e10 : (0x1 <<< 10 : Nat) = 2 ^ 10 := by decide
  have hh : toByte (((cAnd (rawValue sc buf) (0x3 <<< 8) >>> 8 : Nat)) : Int)
      = (rawValue sc buf % 2 ^ 64).toNat / 256 % 4 := by
    unfold cAnd toByte
    rw [and_hres_shift]
    omega
  simp only [e13, e12, e11, e10, cAnd_two_pow, hh]

theorem getConfig_write_failed {σ : Type} (T : Transport σ) (sc : Bool) (w : World σ)
    (hw : (T.write w.dev [REG_CFG]).2 ≠ 1) :
    getConfig T sc w =
      { dev := (T.write w.dev [REG_CFG]).1, v := w.v, config := w.config,
        trace := w.trace ++ [Event.write [REG_CFG], Event.perror "Failed to write to i2c bus"] } := by
  simp [getConfig, sysWrite, perror, emit, hw]

theorem getConfig_read_failed {σ : Type} (T : Transport σ) (sc : Bool) (w : World σ)
    (hw : (T.write w.dev [REG_CFG]).2 = 1)
    (hr : (T.read (T.write w.dev [REG_CFG]).1 2).2.1 ≠ 2) :
    getConfig T sc w =
      { dev := (T.read (T.write w.dev [REG_CFG]).1 2).1, v := w.v, config := w.config,
        trace := w.trace ++ [Event.write [REG_CFG], Event.read 2,
          Event.perror "Failed to read from i2c bus"] } := by
  simp [getConfig, sysWrite, sysRead, perror, emit, hw, hr]

theorem getConfig_read_ok {σ : Type} (T : Transport σ) (sc : Bool) (w : World σ)
    (hw : (T.write w.dev [REG_CFG]).2 = 1)
    (hr : (T.read (T.write w.dev [REG_CFG]).1 2).2.1 = 2) :
    getConfig T sc w =
      { dev := (T.read (T.write w.dev [REG_CFG]).1 2).1, v := w.v,
        config := decodeConfig sc
          (fillBuf [REG_CFG, 0] (T.read (T.write w.dev [REG_CFG]).1 2).2.2 2) w.config,
        trace := w.trace ++ [Event.write [REG_CFG], Event.read 2] } := by
  simp [getConfig, sysWrite, sysRead, emit, hw, hr]

theorem decodeConfig_two (sc : Bool) (hi lo : Nat) (rest : List Nat) (c : hdc1008_config) :
    decodeConfig sc ([hi, lo] ++ rest) c = decodeConfig sc [hi, lo] c := by
  simp [decodeConfig, rawValue]

theorem getConfig_of_bytes {σ : Type} (T : Transport σ) (sc : Bool) (w : World σ) (hi lo : Nat)
    (hw : (T.write w.dev [REG_CFG]).2 = 1)
    (hr : (T.read (T.write w.dev [REG_CFG]).1 2).2 = (2, [hi, lo])) :
    (getConfig T sc w).config = decodeConfig sc [hi, lo] w.config := by
  have h1 : (T.read (T.write w.dev [REG_CFG]).1 2).2.1 = 2 := by rw [hr]
  have h2 : (T.read (T.write w.dev [REG_CFG]).1 2).2.2 = [hi, lo] := by rw [hr]
  rw [getConfig_read_ok T sc w hw h1, h2, fillBuf_two, decodeConfig_two]

theorem writeConfig_config {σ : Type} (T : Transport σ) (sc : Bool) (w : World σ) :
    (writeConfig T sc w).config = w.config := by
  unfold writeConfig vprintf perror emit sysWrite
  simp only []
  split
  · rfl
  · split <;> rfl

theorem writeConfig_dev {σ : Type} (T : Transport σ) (sc : Bool) (w : World σ) :
    (writeConfig T sc w).dev = (T.write w.dev (configBytes w.config)).1 := by
  unfold writeConfig vprintf perror emit sysWrite
  simp only []
  split
  · rfl
  · split <;> rfl

theorem writesOf_append (xs ys : List Event) : writesOf (xs ++ ys) = writesOf xs ++ writesOf ys := by
  induction xs with
  | nil => rfl
  | cons e es ih => cases e <;> simp [writesOf, ih]

theorem writeConfig_writes {σ : Type} (T : Transport σ) (sc : Bool) (w : World σ) :
    writesOf (writeConfig T sc w).trace = writesOf w.trace ++ [configBytes w.config] := by
  unfold writeConfig vprintf perror emit sysWrite
  simp only []
  split
  · simp [writesOf_append, writesOf]
  · split <;> simp [writesOf_append, writesOf]

theorem charVal_small (sc : Bool) (b : Nat) (hb : b < 128) : charVal sc b = (b : Int) := by
  unfold charVal
  have h : ¬ (128 ≤ b % 256) := by omega
  simp only [h, decide_False, Bool.and_false, Bool.false_eq_true, if_false]
  omega

/-- Where plain `char` is unsigned, `getConfig` stores bits 13, 12, 11, 10 and
9-8 of the big-endian value of the two bytes read. -/
theorem getConfig_unsigned_char {σ : Type} (T : Transport σ) (w : World σ) (hi lo : Nat)
    (hh : hi < 256) (hl : lo < 256)
    (hw : (T.write w.dev [REG_CFG]).2 = 1)
    (hr : (T.read (T.write w.dev [REG_CFG]).1 2).2 = (2, [hi, lo])) :
    (getConfig T false w).config =
      { w.config with
        heater := (256 * hi + lo) / 2 ^ 13 % 2
        mode := (256 * hi + lo) / 2 ^ 12 % 2
        battery := (256 * hi + lo) / 2 ^ 11 % 2
        temp_res := (256 * hi + lo) / 2 ^ 10 % 2
        hum_res := (256 * hi + lo) / 2 ^ 8 % 4 } := by
  rw [getConfig_of_bytes T false w hi lo hw hr, decodeConfig_eq, rawValue_unsigned hi lo hh hl]
  have e : (((256 * hi + lo : Nat) : Int) % 2 ^ 64).toNat = 256 * hi + lo := by omega
  rw [e]
  rfl

/-! ## Claims about the configuration register -/

/-- C2: for every configuration with heater, mode, temp_res in 0..1 and hum_res
in 0..2, `writeConfig` against the fake device that stores the two register
bytes it is sent, followed by `getConfig` against that device, leaves heater,
mode, temp_res and hum_res equal to the values written, and leaves i2c_bus and
i2c_address untouched (only battery may differ). -/
theorem C2_writeConfig_getConfig_roundtrip (sc : Bool) (w : World FakeDev)
    (hh : w.config.heater ≤ 1) (hm : w.config.mode ≤ 1)
    (ht : w.config.temp_res ≤ 1) (hr : w.config.hum_res ≤ 2) :
    (getConfig fakeBus sc (writeConfig fakeBus sc w)).config.heater = w.config.heater ∧
    (getConfig fakeBus sc (writeConfig fakeBus sc w)).config.mode = w.config.mode ∧
    (getConfig fakeBus sc (writeConfig fakeBus sc w)).config.temp_res = w.config.temp_res ∧
    (getConfig fakeBus sc (writeConfig fakeBus sc w)).config.hum_res = w.config.hum_res ∧
    (getConfig fakeBus sc (writeConfig fakeBus sc w)).config.i2c_bus = w.config.i2c_bus ∧
    (getConfig fakeBus sc (writeConfig fakeBus sc w)).config.i2c_address
      = w.config.i2c_address := by
  have hdev : (writeConfig fakeBus sc w).dev
      = { ptr := 0x02, hi := encodeConfig w.config / 256 % 256, lo := 0 } := by
    rw [writeConfig_dev, configBytes_eq]
    rfl
  have hE := encodeConfig_eq w.config
  have hlt : encodeConfig w.config / 256 % 256 < 128 := by omega
  have hcfg := getConfig_of_bytes fakeBus sc (writeConfig fakeBus sc w)
    (encodeConfig w.config / 256 % 256) 0 (by rw [hdev]; rfl) (by rw [hdev]; rfl)
  have hraw : rawValue sc [encodeConfig w.config / 256 % 256, 0]
      = ((encodeConfig w.config / 256 % 256 * 256 : Nat) : Int) := by
    unfold rawValue
    simp only [List.getD_cons_zero, List.getD_cons_succ]
    rw [charVal_small sc _ hlt, charVal_small sc 0 (by decide)]
    push_cast
    ring
  rw [hcfg, decodeConfig_eq, hraw, writeConfig_config]
  have e : (((encodeConfig w.config / 256 % 256 * 256 : Nat) : Int) % 2 ^ 64).toNat
      = encodeConfig w.config / 256 % 256 * 256 := by omega
  rw [e]
  simp only []
  refine ⟨?_, ?_, ?_, ?_, trivial, trivial⟩ <;> omega

/-- The round trip of C2 at heater = 1, mode = 0, temp_res = 1, hum_res = 2 on a
signed-char target. -/
theorem C2_writeConfig_getConfig_roundtrip_witness :
    (getConfig fakeBus true (writeConfig fakeBus true (fakeWorld
      { i2c_bus := 1, i2c_address := 0x40, heater := 1, mode := 0, battery := 1,
        temp_res := 1, hum_res := 2 }))).config.heater = 1 ∧
    (getConfig fakeBus true (writeConfig fakeBus true (fakeWorld
      { i2c_bus := 1, i2c_address := 0x40, heater := 1, mode := 0, battery := 1,
        temp_res := 1, hum_res := 2 }))).config.mode = 0 ∧
    (getConfig fakeBus true (writeConfig fakeBus true (fakeWorld
      { i2c_bus := 1, i2c_address := 0x40, heater := 1, mode := 0, battery := 1,
        temp_res := 1, hum_res := 2 }))).config.temp_res = 1 ∧
    (getConfig fakeBus true (writeConfig fakeBus true (fakeWorld
      { i2c_bus := 1, i2c_address := 0x40, heater := 1, mode := 0, battery := 1,
        temp_res := 1, hum_res := 2 }))).config.hum_res = 2 ∧
    (getConfig fakeBus true (writeConfig fakeBus true (fakeWorld
      { i2c_bus := 1, i2c_address := 0x40, heater := 1, mode := 0, battery := 1,
        temp_res := 1, hum_res := 2 }))).config.i2c_bus = 1 ∧
    (getConfig fakeBus true (writeConfig fakeBus true (fakeWorld
      { i2c_bus := 1, i2c_address := 0x40, heater := 1, mode := 0, battery := 1,
        temp_res := 1, hum_res := 2 }))).config.i2c_address = 0x40 :=
  C2_writeConfig_getConfig_roundtrip true (fakeWorld
      { i2c_bus := 1, i2c_address := 0x40, heater := 1, mode := 0, battery := 1,
        temp_res := 1, hum_res := 2 }) (by decide) (by decide) (by decide) (by decide)

/-- C3: for every configuration with heater, mode, temp_res in 0..1 and hum_res
in 0..2, the only write `writeConfig` issues carries the three bytes
`[0x02, h, 0x00]`, `h` being the high byte of the 16-bit value
`heater*2^13 + mode*2^12 + temp_res*2^10 + hum_res*2^8`. -/
theorem C3_writeConfig_sends_register (σ : Type) (T : Transport σ) (sc : Bool) (w : World σ)
    (hh : w.config.heater ≤ 1) (hm : w.config.mode ≤ 1)
    (ht : w.config.temp_res ≤ 1) (hr : w.config.hum_res ≤ 2) :
    writesOf (writeConfig T sc w).trace = writesOf w.trace ++
      [[0x02,
        (w.config.heater * 2 ^ 13 + w.config.mode * 2 ^ 12 + w.config.temp_res * 2 ^ 10
          + w.config.hum_res * 2 ^ 8) / 256 % 256,
        0x00]] := by
  rw [writeConfig_writes, configBytes_eq, encodeConfig_eq]
  have e : w.config.heater % 2 * 2 ^ 13 + w.config.mode % 2 * 2 ^ 12
      + w.config.temp_res % 2 * 2 ^ 10 + w.config.hum_res % 4 * 256
      = w.config.heater * 2 ^ 13 + w.config.mode * 2 ^ 12 + w.config.temp_res * 2 ^ 10
          + w.config.hum_res * 2 ^ 8 := by omega
  rw [e]

/-- The bytes of C3 at heater = 1, mode = 1, temp_res = 0, hum_res = 2. -/
theorem C3_writeConfig_sends_register_witness :
    writesOf (writeConfig (bytesBus 0 0) false (worldOf
      { i2c_bus := 1, i2c_address := 0x40, heater := 1, mode := 1, battery := 0,
        temp_res := 0, hum_res := 2 })).trace = [[0x02, 0x32, 0x00]] :=
  C3_writeConfig_sends_register Unit (bytesBus 0 0) false (worldOf
      { i2c_bus := 1, i2c_address := 0x40, heater := 1, mode := 1, battery := 0,
        temp_res := 0, hum_res := 2 }) (by decide) (by decide) (by decide) (by decide)

/-- C6: whatever the fields of the configuration hold, the register write of
`writeConfig` carries `[0x02, h, l]` with bit 15 (reset), bit 14, bit 11
(battery) and bits 7..0 of the 16-bit value `256*h + l` all zero, and changing
only the battery field changes none of the bytes written. -/
theorem C6_battery_never_written (σ : Type) (T : Transport σ) (sc : Bool) (w : World σ)
    (b : Nat) :
    (∃ h l : Nat, writesOf (writeConfig T sc w).trace = writesOf w.trace ++ [[0x02, h, l]] ∧
      h < 256 ∧ l < 256 ∧
      (256 * h + l) / 2 ^ 15 % 2 = 0 ∧ (256 * h + l) / 2 ^ 14 % 2 = 0 ∧
      (256 * h + l) / 2 ^ 11 % 2 = 0 ∧ (256 * h + l) % 2 ^ 8 = 0) ∧
    writesOf (writeConfig T sc { w with config := { w.config with battery := b } }).trace
      = writesOf (writeConfig T sc w).trace := by
  constructor
  · refine ⟨encodeConfig w.config / 256 % 256, 0, ?_, ?_⟩
    · rw [writeConfig_writes, configBytes_eq]
    · have hE := encodeConfig_eq w.config
      omega
  · rw [writeConfig_writes, writeConfig_writes]
    rfl

/-- C4, on a target whose plain `char` is signed: reading the bytes
`(0x00, 0x80)` from the configuration register, whose bits 13..8 are all zero,
`getConfig` stores heater = mode = battery = temp_res = 1 and hum_res = 3
(the negative low byte borrows from the high byte), and the two reads
`(0x00, 0x00)` and `(0x00, 0x80)`, which agree on bits 13..8, decode to
different configurations. -/
theorem C4_signed_char_low_byte_borrows :
    (getConfig (bytesBus 0x00 0x80) true world0).config =
      { i2c_bus := 1, i2c_address := 0x40, heater := 1, mode := 1, battery := 1,
        temp_res := 1, hum_res := 3 } ∧
    ((256 * 0x00 + 0x80) / 2 ^ 13 % 2 = 0 ∧ (256 * 0x00 + 0x80) / 2 ^ 12 % 2 = 0 ∧
      (256 * 0x00 + 0x80) / 2 ^ 11 % 2 = 0 ∧ (256 * 0x00 + 0x80) / 2 ^ 10 % 2 = 0 ∧
      (256 * 0x00 + 0x80) / 2 ^ 8 % 4 = 0) ∧
    (getConfig (bytesBus 0x00 0x00) true world0).config =
      { i2c_bus := 1, i2c_address := 0x40, heater := 0, mode := 0, battery := 0,
        temp_res := 0, hum_res := 0 } := by
  refine ⟨?_, by decide, ?_⟩
  · rw [getConfig_of_bytes (bytesBus 0x00 0x80) true world0 0x00 0x80 rfl rfl]
    decide
  · rw [getConfig_of_bytes (bytesBus 0x00 0x00) true world0 0x00 0x00 rfl rfl]
    decide

/-- C5: for every pair of bytes read from the configuration register, on either
kind of target, `getConfig` succeeds (no `perror`), stores a temp_res in 0..1
that `printConfig` reports as 14 or 11 bit, and stores as hum_res the 2-bit
number in bits 9-8 of `cfg`, which `printConfig` reports as 14, 11 or 8 bit:
0 as 14, 1 as 11, 2 as 8. -/
theorem C5_decode_total_resolutions (σ : Type) (T : Transport σ) (sc : Bool) (w : World σ)
    (hi lo : Nat)
    (hw : (T.write w.dev [REG_CFG]).2 = 1)
    (hr : (T.read (T.write w.dev [REG_CFG]).1 2).2 = (2, [hi, lo])) :
    (getConfig T sc w).trace = w.trace ++ [Event.write [REG_CFG], Event.read 2] ∧
    ((getConfig T sc w).config.temp_res = 0 ∨ (getConfig T sc w).config.temp_res = 1) ∧
    (tempResBits (getConfig T sc w).config = 14 ∨ tempResBits (getConfig T sc w).config = 11) ∧
    ((getConfig T sc w).config.temp_res = 0 → tempResBits (getConfig T sc w).config = 14) ∧
    ((getConfig T sc w).config.temp_res = 1 → tempResBits (getConfig T sc w).config = 11) ∧
    (getConfig T sc w).config.hum_res = (rawValue sc [hi, lo] % 2 ^ 64).toNat / 2 ^ 8 % 4 ∧
    (humResBits (getConfig T sc w).config = 14 ∨ humResBits (getConfig T sc w).config = 11 ∨
      humResBits (getConfig T sc w).config = 8) ∧
    ((getConfig T sc w).config.hum_res = 0 → humResBits (getConfig T sc w).config = 14) ∧
    ((getConfig T sc w).config.hum_res = 1 → humResBits (getConfig T sc w).config = 11) ∧
    ((getConfig T sc w).config.hum_res = 2 → humResBits (getConfig T sc w).config = 8) := by
  have h1 : (T.read (T.write w.dev [REG_CFG]).1 2).2.1 = 2 := by rw [hr]
  have htr : (getConfig T sc w).trace = w.trace ++ [Event.write [REG_CFG], Event.read 2] := by
    rw [getConfig_read_ok T sc w hw h1]
  have hc := getConfig_of_bytes T sc w hi lo hw hr
  rw [decodeConfig_eq] at hc
  have ht : (getConfig T sc w).config.temp_res
      = (rawValue sc [hi, lo] % 2 ^ 64).toNat / 2 ^ 10 % 2 := by rw [hc]
  have hh : (getConfig T sc w).config.hum_res
      = (rawValue sc [hi, lo] % 2 ^ 64).toNat / 2 ^ 8 % 4 := by rw [hc]; rfl
  refine ⟨htr, by omega, ?_, ?_, ?_, hh, ?_, ?_, ?_, ?_⟩
  · unfold tempResBits
    split <;> simp
  · intro h
    simp [tempResBits, h]
  · intro h
    simp [tempResBits, h]
  · unfold humResBits
    split
    · simp
    · split <;> simp
  · intro h
    simp [humResBits, h]
  · intro h
    simp [humResBits, h]
  · intro h
    simp [humResBits, h]

/-- The decode of C5 at the bytes (0x12, 0x34) on a signed-char target. -/
theorem C5_decode_total_resolutions_witness :
    (getConfig (bytesBus 0x12 0x34) true world0).trace
      = world0.trace ++ [Event.write [REG_CFG], Event.read 2] ∧
    ((getConfig (bytesBus 0x12 0x34) true world0).config.temp_res = 0 ∨
      (getConfig (bytesBus 0x12 0x34) true world0).config.temp_res = 1) ∧
    (tempResBits (getConfig (bytesBus 0x12 0x34) true world0).config = 14 ∨
      tempResBits (getConfig (bytesBus 0x12 0x34) true world0).config = 11) ∧
    ((getConfig (bytesBus 0x12 0x34) true world0).config.temp_res = 0 →
      tempResBits (getConfig (bytesBus 0x12 0x34) true world0).config = 14) ∧
    ((getConfig (bytesBus 0x12 0x34) true world0).config.temp_res = 1 →
      tempResBits (getConfig (bytesBus 0x12 0x34) true world0).config = 11) ∧
    (getConfig (bytesBus 0x12 0x34) true world0).config.hum_res
      = (rawValue true [0x12, 0x34] % 2 ^ 64).toNat / 2 ^ 8 % 4 ∧
    (humResBits (getConfig (bytesBus 0x12 0x34) true world0).config = 14 ∨
      humResBits (getConfig (bytesBus 0x12 0x34) true world0).config = 11 ∨
      humResBits (getConfig (bytesBus 0x12 0x34) true world0).config = 8) ∧
    ((getConfig (bytesBus 0x12 0x34) true world0).config.hum_res = 0 →
      humResBits (getConfig (bytesBus 0x12 0x34) true world0).config = 14) ∧
    ((getConfig (bytesBus 0x12 0x34) true world0).config.hum_res = 1 →
      humResBits (getConfig (bytesBus 0x12 0x34) true world0).config = 11) ∧
    ((getConfig (bytesBus 0x12 0x34) true world0).config.hum_res = 2 →
      humResBits (getConfig (bytesBus 0x12 0x34) true world0).config = 8) :=
  C5_decode_total_resolutions Unit (bytesBus 0x12 0x34) true world0 0x12 0x34 rfl rfl

/-! ## Claims about the measurement functions -/

theorem temp_formula_ne_zero (raw : Int) : ((raw : ℚ) / 65536) * 165 - 40 ≠ 0 := by
  intro h
  have h2 : (raw : ℚ) * 165 = 2621440 := by
    field_simp at h
    linarith
  have h3 : raw * 165 = 2621440 := by exact_mod_cast h2
  omega

theorem hum_formula_eq_zero (raw : Int) : ((raw : ℚ) / 65536) * 100 = 0 ↔ raw = 0 := by
  constructor
  · intro h
    have h2 : (raw : ℚ) = 0 := by
      field_simp at h
      linarith
    exact_mod_cast h2
  · intro h
    simp [h]

theorem rawValue_eq_zero (sc : Bool) (hi lo : Nat) (hh : hi < 256) (hl : lo < 256) :
    rawValue sc [hi, lo] = 0 ↔ hi = 0 ∧ lo = 0 := by
  unfold rawValue charVal
  simp only [List.getD_cons_zero, List.getD_cons_succ]
  by_cases h1 : 128 ≤ hi % 256 <;> by_cases h2 : 128 ≤ lo % 256 <;> cases sc <;>
    simp [h1, h2] <;> omega

/-- C1, on a target whose plain `char` is signed: the bytes `(0x80, 0x00)`
make `getTemp` return -122.5 and `getHum` return -50, where the formula on the
raw value `0x8000` gives 42.5 and 50; the bytes `(0x00, 0x80)` make them
compute with the raw value -128 instead of 128. -/
theorem C1_signed_char_sign_extends_raw :
    (getTemp (bytesBus 0x80 0x00) true world0).1 = -245 / 2 ∧
    (getHum (bytesBus 0x80 0x00) true world0).1 = -50 ∧
    (((256 * 0x80 + 0x00 : Nat) : ℚ) / 65536) * 165 - 40 = 85 / 2 ∧
    (((256 * 0x80 + 0x00 : Nat) : ℚ) / 65536) * 100 = 50 ∧
    (getTemp (bytesBus 0x00 0x80) true world0).1 = (((-128 : Int) : ℚ) / 65536) * 165 - 40 ∧
    (getHum (bytesBus 0x00 0x80) true world0).1 = (((-128 : Int) : ℚ) / 65536) * 100 ∧
    (getTemp (bytesBus 0x00 0x80) true world0).1
      ≠ (((256 * 0x00 + 0x80 : Nat) : ℚ) / 65536) * 165 - 40 ∧
    (getHum (bytesBus 0x00 0x80) true world0).1
      ≠ (((256 * 0x00 + 0x80 : Nat) : ℚ) / 65536) * 100 := by
  have r1 : rawValue true [0x80, 0x00] = -32768 := by decide
  have r2 : rawValue true [0x00, 0x80] = -128 := by decide
  rw [getTemp_of_bytes (bytesBus 0x80 0x00) true world0 0x80 0x00 rfl rfl,
    getHum_of_bytes (bytesBus 0x80 0x00) true world0 0x80 0x00 rfl rfl,
    getTemp_of_bytes (bytesBus 0x00 0x80) true world0 0x00 0x80 rfl rfl,
    getHum_of_bytes (bytesBus 0x00 0x80) true world0 0x00 0x80 rfl rfl, r1, r2]
  norm_num

/-- C10, on a target whose plain `char` is signed: the bytes `(0x00, 0x80)`
give a temperature below -40 and a humidity below 0, and although the raw value
of `(0x00, 0x7F)` is smaller than that of `(0x00, 0x80)`, its temperature and
humidity are larger. -/
theorem C10_signed_char_leaves_range :
    (getTemp (bytesBus 0x00 0x80) true world0).1 < -40 ∧
    (getHum (bytesBus 0x00 0x80) true world0).1 < 0 ∧
    256 * 0x00 + 0x7F < 256 * 0x00 + 0x80 ∧
    (getTemp (bytesBus 0x00 0x80) true world0).1 < (getTemp (bytesBus 0x00 0x7F) true world0).1 ∧
    (getHum (bytesBus 0x00 0x80) true world0).1 < (getHum (bytesBus 0x00 0x7F) true world0).1 := by
  have r1 : rawValue true [0x00, 0x7F] = 127 := by decide
  have r2 : rawValue true [0x00, 0x80] = -128 := by decide
  rw [getTemp_of_bytes (bytesBus 0x00 0x7F) true world0 0x00 0x7F rfl rfl,
    getHum_of_bytes (bytesBus 0x00 0x7F) true world0 0x00 0x7F rfl rfl,
    getTemp_of_bytes (bytesBus 0x00 0x80) true world0 0x00 0x80 rfl rfl,
    getHum_of_bytes (bytesBus 0x00 0x80) true world0 0x00 0x80 rfl rfl, r1, r2]
  norm_num

/-- C7 as stated fails for `getHum`: after a failed register-select write it
returns 0, which is also what it returns for the successful read of the bytes
`(0x00, 0x00)`. -/
theorem C7_getHum_error_equals_measurement :
    (deadBus.write world0.dev [REG_HUM]).2 ≠ 1 ∧
    ((bytesBus 0x00 0x00).write world0.dev [REG_HUM]).2 = 1 ∧
    ((bytesBus 0x00 0x00).read ((bytesBus 0x00 0x00).write world0.dev [REG_HUM]).1 2).2
      = (2, [0x00, 0x00]) ∧
    (getHum deadBus false world0).1 = (getHum (bytesBus 0x00 0x00) false world0).1 := by
  refine ⟨by decide, rfl, rfl, ?_⟩
  rw [getHum_write_failed deadBus false world0 (by decide),
    getHum_of_bytes (bytesBus 0x00 0x00) false world0 0x00 0x00 rfl rfl]
  have r : rawValue false [0x00, 0x00] = 0 := by decide
  rw [r]
  norm_num

/-- C7, amended: when the register-select write does not return 1, `getTemp`
and `getHum` make no further bus or clock call (the trace grows by the write
and a `perror`) and return 0; when the 2-byte read does not return 2 they
report with `perror` and return 0 as well.  For `getTemp`, 0 differs from the
value of every successful read; for `getHum`, 0 is the value of the successful
read of the bytes (0x00, 0x00) and of no other. -/
theorem C7_failed_transfer_returns_zero (σ : Type) (T : Transport σ) (sc : Bool) (w : World σ) :
    ((T.write w.dev [REG_TEMP]).2 ≠ 1 →
      (getTemp T sc w).1 = 0 ∧
      (getTemp T sc w).2.trace = w.trace ++
        [Event.write [REG_TEMP], Event.perror "Failed to write to i2c bus"]) ∧
    ((T.write w.dev [REG_HUM]).2 ≠ 1 →
      (getHum T sc w).1 = 0 ∧
      (getHum T sc w).2.trace = w.trace ++
        [Event.write [REG_HUM], Event.perror "Failed to write to i2c bus"]) ∧
    ((T.write w.dev [REG_TEMP]).2 = 1 → (T.read (T.write w.dev [REG_TEMP]).1 2).2.1 ≠ 2 →
      (getTemp T sc w).1 = 0 ∧
      (getTemp T sc w).2.trace = w.trace ++
        [Event.write [REG_TEMP], Event.usleep 7000, Event.read 2,
          Event.perror "Failed to read from i2c bus"]) ∧
    ((T.write w.dev [REG_HUM]).2 = 1 → (T.read (T.write w.dev [REG_HUM]).1 2).2.1 ≠ 2 →
      (getHum T sc w).1 = 0 ∧
      (getHum T sc w).2.trace = w.trace ++
        [Event.write [REG_HUM], Event.usleep 7000, Event.read 2,
          Event.perror "Failed to read from i2c bus"]) ∧
    ((T.write w.dev [REG_TEMP]).2 = 1 → (T.read (T.write w.dev [REG_TEMP]).1 2).2.1 = 2 →
      (getTemp T sc w).1 ≠ 0) ∧
    (∀ hi lo : Nat, hi < 256 → lo < 256 → (T.write w.dev [REG_HUM]).2 = 1 →
      (T.read (T.write w.dev [REG_HUM]).1 2).2 = (2, [hi, lo]) →
      ((getHum T sc w).1 = 0 ↔ hi = 0 ∧ lo = 0)) := by
  refine ⟨?_, ?_, ?_, ?_, ?_, ?_⟩
  · intro hw
    rw [getTemp_write_failed T sc w hw]
    exact ⟨rfl, rfl⟩
  · intro hw
    rw [getHum_write_failed T sc w hw]
    exact ⟨rfl, rfl⟩
  · intro hw hr
    rw [getTemp_read_failed T sc w hw hr]
    exact ⟨rfl, rfl⟩
  · intro hw hr
    rw [getHum_read_failed T sc w hw hr]
    exact ⟨rfl, rfl⟩
  · intro hw hr
    rw [getTemp_read_ok T sc w hw hr]
    exact temp_formula_ne_zero _
  · intro hi lo hh hl hw hr
    rw [getHum_of_bytes T sc w hi lo hw hr, hum_formula_eq_zero, rawValue_eq_zero sc hi lo hh hl]

/-- The cases of the amended C7 on a dead bus, a bus with short reads and a bus
answering (0x00, 0x00). -/
theorem C7_failed_transfer_returns_zero_witness :
    ((getTemp deadBus true world0).1 = 0 ∧
      (getTemp deadBus true world0).2.trace = world0.trace ++
        [Event.write [REG_TEMP], Event.perror "Failed to write to i2c bus"]) ∧
    ((getHum deadBus true world0).1 = 0 ∧
      (getHum deadBus true world0).2.trace = world0.trace ++
        [Event.write [REG_HUM], Event.perror "Failed to write to i2c bus"]) ∧
    ((getTemp shortReadBus true world0).1 = 0 ∧
      (getTemp shortReadBus true world0).2.trace = world0.trace ++
        [Event.write [REG_TEMP], Event.usleep 7000, Event.read 2,
          Event.perror "Failed to read from i2c bus"]) ∧
    ((getHum shortReadBus true world0).1 = 0 ∧
      (getHum shortReadBus true world0).2.trace = world0.trace ++
        [Event.write [REG_HUM], Event.usleep 7000, Event.read 2,
          Event.perror "Failed to read from i2c bus"]) ∧
    (getTemp (bytesBus 0x00 0x00) true world0).1 ≠ 0 ∧
    ((getHum (bytesBus 0x00 0x00) true world0).1 = 0 ↔ 0x00 = 0 ∧ 0x00 = 0) :=
  ⟨(C7_failed_transfer_returns_zero Unit deadBus true world0).1 (by decide),
   (C7_failed_transfer_returns_zero Unit deadBus true world0).2.1 (by decide),
   (C7_failed_transfer_returns_zero Unit shortReadBus true world0).2.2.1 rfl (by decide),
   (C7_failed_transfer_returns_zero Unit shortReadBus true world0).2.2.2.1 rfl (by decide),
   (C7_failed_transfer_returns_zero Unit (bytesBus 0x00 0x00) true world0).2.2.2.2.1 rfl rfl,
   (C7_failed_transfer_returns_zero Unit (bytesBus 0x00 0x00) true world0).2.2.2.2.2
     0x00 0x00 (by decide) (by decide) rfl rfl⟩

/-- C8: the calls `getTemp` and `getHum` add to the trace contain a read
exactly when the register-select write returned 1, and then their bus and clock
calls are exactly: the 1-byte write of the register address (0x00 for the
temperature, 0x01 for the humidity), `usleep(7000)`, one 2-byte read. -/
theorem C8_write_sleep_read_sequence (σ : Type) (T : Transport σ) (sc : Bool) (w : World σ) :
    (∃ added : List Event, (getTemp T sc w).2.trace = w.trace ++ added ∧
      ((∃ n, Event.read n ∈ added) ↔ (T.write w.dev [REG_TEMP]).2 = 1) ∧
      ((∃ n, Event.read n ∈ added) →
        busEvents added = [Event.write [0x00], Event.usleep 7000, Event.read 2])) ∧
    (∃ added : List Event, (getHum T sc w).2.trace = w.trace ++ added ∧
      ((∃ n, Event.read n ∈ added) ↔ (T.write w.dev [REG_HUM]).2 = 1) ∧
      ((∃ n, Event.read n ∈ added) →
        busEvents added = [Event.write [0x01], Event.usleep 7000, Event.read 2])) ∧
    7 * 1000 ≤ 7000 := by
  refine ⟨?_, ?_, by decide⟩
  · by_cases hw : (T.write w.dev [REG_TEMP]).2 = 1
    · by_cases hr : (T.read (T.write w.dev [REG_TEMP]).1 2).2.1 = 2
      · refine ⟨[Event.write [REG_TEMP], Event.usleep 7000, Event.read 2], ?_, ?_, ?_⟩
        · rw [getTemp_read_ok T sc w hw hr]
        · simp [hw]
        · intro _
          rfl
      · refine ⟨[Event.write [REG_TEMP], Event.usleep 7000, Event.read 2,
          Event.perror "Failed to read from i2c bus"], ?_, ?_, ?_⟩
        · rw [getTemp_read_failed T sc w hw hr]
        · simp [hw]
        · intro _
          rfl
    · refine ⟨[Event.write [REG_TEMP], Event.perror "Failed to write to i2c bus"], ?_, ?_, ?_⟩
      · rw [getTemp_write_failed T sc w hw]
      · simp [hw]
      · intro h
        simp at h
  · by_cases hw : (T.write w.dev [REG_HUM]).2 = 1
    · by_cases hr : (T.read (T.write w.dev [REG_HUM]).1 2).2.1 = 2
      · refine ⟨[Event.write [REG_HUM], Event.usleep 7000, Event.read 2], ?_, ?_, ?_⟩
        · rw [getHum_read_ok T sc w hw hr]
        · simp [hw]
        · intro _
          rfl
      · refine ⟨[Event.write [REG_HUM], Event.usleep 7000, Event.read 2,
          Event.perror "Failed to read from i2c bus"], ?_, ?_, ?_⟩
        · rw [getHum_read_failed T sc w hw hr]
        · simp [hw]
        · intro _
          rfl
    · refine ⟨[Event.write [REG_HUM], Event.perror "Failed to write to i2c bus"], ?_, ?_, ?_⟩
      · rw [getHum_write_failed T sc w hw]
      · simp [hw]
      · intro h
        simp at h

/-- A valid `-m` option sets `mode` and, running on into `case 'e':`, sets
`opt_heater` to the same value. -/
theorem optStep_mode_sets_heater {σ : Type} (arg : String) (l : Locals) (w : World σ)
    (h0 : 0 ≤ atoi arg) (h1 : atoi arg ≤ 1) :
    optStep ⟨'m', arg⟩ l w
      = Step.next { l with mode := atoi arg, opt_heater := atoi arg } w := by
  have hm : ¬ (atoi arg > 1 ∨ atoi arg < 0) := by omega
  simp [optStep, caseE, hm]

/-- C9, the command line `-m 1`: the write carries 0x36, heater bit (bit 5 of
the high byte) set, and the configuration holds heater = 1, although no `-e`
option was given; the command line `-e 1 -m 0`: the write carries 0x06, heater
bit clear, and the configuration holds heater = 0. -/
theorem C9_mode_option_overwrites_heater :
    (main sysOk (bytesBus 0 0) false [⟨'m', "1"⟩] world0).1 = 0 ∧
    writesOf (main sysOk (bytesBus 0 0) false [⟨'m', "1"⟩] world0).2.trace
      = [[0x02, 0x36, 0x00]] ∧
    (main sysOk (bytesBus 0 0) false [⟨'m', "1"⟩] world0).2.config.mode = 1 ∧
    (main sysOk (bytesBus 0 0) false [⟨'m', "1"⟩] world0).2.config.heater = 1 ∧
    (main sysOk (bytesBus 0 0) false [⟨'e', "1"⟩, ⟨'m', "0"⟩] world0).1 = 0 ∧
    writesOf (main sysOk (bytesBus 0 0) false [⟨'e', "1"⟩, ⟨'m', "0"⟩] world0).2.trace
      = [[0x02, 0x06, 0x00]] ∧
    (main sysOk (bytesBus 0 0) false [⟨'e', "1"⟩, ⟨'m', "0"⟩] world0).2.config.mode = 0 ∧
    (main sysOk (bytesBus 0 0) false [⟨'e', "1"⟩, ⟨'m', "0"⟩] world0).2.config.heater = 0 := by
  decide

end HDC1008
